import Mathlib

set_option maxRecDepth 4000

/-!
Shallow embedding of the k8s_constraints repository: syntactic validators for
the Kubernetes manifest identifier fields metadata.name, metadata.labels,
metadata.annotations, apiVersion and kind.

Modelling conventions:
- Go's `error` is modelled as `Option String`: `none` is Go's `nil`
  (success), `some msg` is a non-nil error carrying the message `msg`
  (`errors.New(msg)` / `fmt.Errorf` always yield a non-nil error).
- Go's `len(s)` on a string counts UTF-8 bytes; it is modelled by `goLen`.
- Go's anchored regexes over explicit ASCII character classes are modelled
  by `anchoredMatch` (see its doc comment for the equivalence argument).
- Go maps have no reliable iteration order; a `map[string]string` is
  modelled as an association list, the list order standing for one
  iteration order.
- Annotation values are checked by Go's `utf8.ValidString` over raw bytes,
  so an annotation value is modelled as a byte list (`List Nat`, each < 256
  in any well-formed input) and `validUtf8` mirrors the RFC 3629 acceptance
  table that `unicode/utf8` implements.
- Each source file is one namespace (`MetdataName` for metdata-name.go,
  `NewSubdomain` for new-subdomain-name.go, `Part000` for unnamed/part_000,
  `Annotations` for metadata-annotations.go, `Kind` for kind.go,
  `ApiVersion` for apiVersion.go); the repository declares several
  conflicting functions of the same name in package main, so in-file
  references resolve to the same file's definition.
-/

/-- Character class `[a-z0-9]` (codes: a=97, z=122, 0=48, 9=57). -/
def isLowerAlnumChar (c : Char) : Bool :=
  (97 ≤ c.toNat && c.toNat ≤ 122) || (48 ≤ c.toNat && c.toNat ≤ 57)

/-- Character class `[A-Z]` (codes: A=65, Z=90). -/
def isUpperAlphaChar (c : Char) : Bool :=
  65 ≤ c.toNat && c.toNat ≤ 90

/-- Character class `[0-9]`, Go regexp `\d`. -/
def isDigitChar (c : Char) : Bool :=
  48 ≤ c.toNat && c.toNat ≤ 57

/-- Character class `[a-zA-Z0-9]`. -/
def isAlnumChar (c : Char) : Bool :=
  isUpperAlphaChar c || (97 ≤ c.toNat && c.toNat ≤ 122) || isDigitChar c

/-- Character class `[-a-zA-Z0-9]` (label middle, mixed case). -/
def isLabelMidMixed (c : Char) : Bool :=
  isAlnumChar c || c = '-'

/-- Character class `[-a-z0-9]` (label middle, lowercase). -/
def isLabelMidLower (c : Char) : Bool :=
  isLowerAlnumChar c || c = '-'

/-- Character class `[-A-Za-z0-9_.]` (qualified-name-part middle). -/
def isNamePartMid (c : Char) : Bool :=
  isAlnumChar c || c = '-' || c = '_' || c = '.'

/-- Character class of alphanumerics, slash and hyphen (allowed apiVersion
characters; the source writes the slash before the hyphen in its class). -/
def isApiVersionChar (c : Char) : Bool :=
  isAlnumChar c || c = '/' || c = '-'

/-- Tail of `anchoredMatch`: every character but the last satisfies `isM`,
the last satisfies `isA`; true of the empty tail. -/
def tailAnchored (isA isM : Char → Bool) : List Char → Bool
  | [] => true
  | c :: rest => if rest.isEmpty then isA c else isM c && tailAnchored isA isM rest

/-- Matcher for the anchored regex shape `^A(M*A)?$` over character classes
`A` (`isA`) and `M` (`isM`): the string is nonempty, its first and last
characters are in `A`, and every character between is in `M`. This is
exactly the language of `^A(M*A)?$`: a one-character match is the bare
first `A`; a longer match puts its last character in the closing `A` and
everything between in `M*`. The repository's label, subdomain-segment,
and qualified-name-part regexes all have this shape (for
`^([A-Za-z0-9][-A-Za-z0-9_.]*)?[A-Za-z0-9]$` the same language results:
one character is the bare final `A`, a longer match opens the optional
group with its first character). -/
def anchoredMatch (isA isM : Char → Bool) : List Char → Bool
  | [] => false
  | c :: rest => isA c && tailAnchored isA isM rest

/-- Split on every occurrence of `sep`, Go's `strings.Split(s, sep)` for a
one-character separator: n separators yield n+1 (possibly empty) parts. -/
def splitAll (sep : Char) : List Char → List (List Char)
  | [] => [[]]
  | c :: cs =>
    if c = sep then [] :: splitAll sep cs
    else
      match splitAll sep cs with
      | [] => [[c]]
      | p :: ps => (c :: p) :: ps

/-- Split on the first occurrence of `sep` only: the part before it, and
(when `sep` occurs) everything after it. -/
def splitFirst (sep : Char) : List Char → List Char × Option (List Char)
  | [] => ([], none)
  | c :: cs =>
    if c = sep then ([], some cs)
    else
      let r := splitFirst sep cs
      (c :: r.1, r.2)

/-- Go's `strings.SplitN(s, sep, 2)` for a one-character separator, as the
first part plus the optional remainder: `("a", some "b/c")` stands for the
two-element slice `["a", "b/c"]`, `("a", none)` for the one-element slice
`["a"]`. `strings.SplitN` never returns an empty slice for n = 2. -/
def splitN2 (sep : Char) (s : String) : String × Option String :=
  match splitFirst sep s.data with
  | (a, none) => (String.mk a, none)
  | (a, some b) => (String.mk a, some (String.mk b))

/-- Number of bytes in the UTF-8 encoding of one character. -/
def charUtf8Len (c : Char) : Nat :=
  if c.toNat < 128 then 1
  else if c.toNat < 2048 then 2
  else if c.toNat < 65536 then 3
  else 4

/-- Go's `len(s)` on a string: the byte length of its UTF-8 encoding. -/
def goLen (s : String) : Nat :=
  (s.data.map charUtf8Len).sum

/-- An optional error as the list of errors Go's `append(errs, err)` adds:
nothing for `nil`, one message otherwise. -/
def optList : Option String → List String
  | none => []
  | some e => [e]

/-- Go's `strings.Join(elems, sep)`: empty for no elements, otherwise the
first element followed by `sep`+element for each further element. -/
def goJoin (sep : String) : List String → String
  | [] => ""
  | e :: rest => rest.foldl (fun acc s => acc ++ (sep ++ s)) e

/-- Whether `needle` occurs as a contiguous segment of the second list. -/
def containsSeg (needle : List Char) : List Char → Bool
  | [] => needle.isEmpty
  | c :: rest => needle.isPrefixOf (c :: rest) || containsSeg needle rest

/-- Whether the string `needle` is a substring of `hay`. -/
def strContainsSub (needle hay : String) : Bool :=
  containsSeg needle.data hay.data

/-- A UTF-8 continuation byte, 0x80..0xBF. -/
def isContByte (b : Nat) : Bool :=
  128 ≤ b && b ≤ 191

/-- Go's `unicode/utf8.ValidString` over the string's bytes: the RFC 3629
acceptance table (no overlong encodings, no surrogates, nothing above
U+10FFFF), exactly the first-byte/second-byte ranges Go's utf8 package
accepts. -/
def validUtf8 : List Nat → Bool
  | [] => true
  | b :: rest =>
    if b ≤ 127 then validUtf8 rest
    else if 194 ≤ b && b ≤ 223 then
      match rest with
      | b2 :: r => isContByte b2 && validUtf8 r
      | [] => false
    else if b = 224 then
      match rest with
      | b2 :: b3 :: r => (160 ≤ b2 && b2 ≤ 191) && isContByte b3 && validUtf8 r
      | _ => false
    else if 225 ≤ b && b ≤ 236 then
      match rest with
      | b2 :: b3 :: r => isContByte b2 && isContByte b3 && validUtf8 r
      | _ => false
    else if b = 237 then
      match rest with
      | b2 :: b3 :: r => (128 ≤ b2 && b2 ≤ 159) && isContByte b3 && validUtf8 r
      | _ => false
    else if 238 ≤ b && b ≤ 239 then
      match rest with
      | b2 :: b3 :: r => isContByte b2 && isContByte b3 && validUtf8 r
      | _ => false
    else if b = 240 then
      match rest with
      | b2 :: b3 :: b4 :: r =>
        (144 ≤ b2 && b2 ≤ 191) && isContByte b3 && isContByte b4 && validUtf8 r
      | _ => false
    else if 241 ≤ b && b ≤ 243 then
      match rest with
      | b2 :: b3 :: b4 :: r =>
        isContByte b2 && isContByte b3 && isContByte b4 && validUtf8 r
      | _ => false
    else if b = 244 then
      match rest with
      | b2 :: b3 :: b4 :: r =>
        (128 ≤ b2 && b2 ≤ 143) && isContByte b3 && isContByte b4 && validUtf8 r
      | _ => false
    else false

/-- First character is an uppercase ASCII letter. -/
def headUpper : List Char → Bool
  | [] => false
  | c :: _ => isUpperAlphaChar c

/-- Spec-side notion from claim C1's words: an RFC 1123 label, lowercase:
nonempty, at most 63 characters, lowercase alphanumeric or hyphen, starting
and ending with an alphanumeric. -/
def specRFC1123LowerLabel (cs : List Char) : Bool :=
  !cs.isEmpty && cs.length ≤ 63 &&
    cs.all (fun c => isLowerAlnumChar c || c = '-') &&
    isLowerAlnumChar (cs.headD ' ') && isLowerAlnumChar (cs.getLastD ' ')

/-- Spec-side notion from claim C1's words: a valid DNS Subdomain, one or
more dot-separated RFC 1123 labels, lowercase, total length at most 253. -/
def specDNSSubdomain (s : String) : Bool :=
  s.data.length ≤ 253 && (splitAll '.' s.data).all specRFC1123LowerLabel

/-- Spec-side notion from claim C8's words: the semicolon-joined
concatenation of the input descriptions, in input order. -/
def semicolonJoined : List String → String
  | [] => ""
  | e :: rest => if rest.isEmpty then e else e ++ "; " ++ semicolonJoined rest

namespace MetdataName

/-- metdata-name.go `ValidateLength`: this file's variant rejects the empty
string before the maximum-length check. -/
def ValidateLength (input : String) (maxLength : Nat) : Option String :=
  if goLen input = 0 then some "input cannot be empty"
  else if maxLength < goLen input then
    some ("input exceeds maximum length of " ++ toString maxLength ++ " characters")
  else none

/-- metdata-name.go `ValidateDNSSubdomain`: only the anchored regex
`^[a-z0-9]([-a-z0-9]*[a-z0-9])?$` — note that, although the comment and
the message speak of dots, the regex has no dot, and the function has no
length check of its own. -/
def ValidateDNSSubdomain (subdomain : String) : Option String :=
  if anchoredMatch isLowerAlnumChar isLabelMidLower subdomain.data then none
  else some "subdomain must match DNS subdomain format (lowercase alphanumeric, `-`, `.`, max 253 characters, must start and end with alphanumeric)"

/-- The error list metdata-name.go `ValidateMetadataName` accumulates: a
length check wrapped with the field's context, then the DNS-subdomain
check. -/
def nameErrs (name : String) : List String :=
  optList ((ValidateLength name 253).map
    (fun e => "metadata.name must be between 1 and 253 characters: " ++ e)) ++
  optList (ValidateDNSSubdomain name)

/-- metdata-name.go `ValidateMetadataName`: both checks run, errors joined by
JoinErrors (identical in every file that defines it, modelled by `goJoin`). -/
def ValidateMetadataName (name : String) : Option String :=
  if 0 < (nameErrs name).length then some (goJoin "; " (nameErrs name)) else none

end MetdataName

namespace NewSubdomain

/-- new-subdomain-name.go `ValidateDNSSubdomain`: the updated regex
`^[a-z0-9]([-a-z0-9]*[a-z0-9])?(\.[a-z0-9]([-a-z0-9]*[a-z0-9])?)*$` with
the 253-byte length check. A string matches that regex exactly when every
part of its all-dots split matches the label shape (the label alphabet has
no dot, so the regex's dot-separated factors are the split's parts; the
empty string's single empty part fails the nonempty label shape, as the
regex requires). -/
def ValidateDNSSubdomain (subdomain : String) : Option String :=
  if 253 < goLen subdomain then
    some "subdomain exceeds maximum length of 253 characters"
  else if (splitAll '.' subdomain.data).all
      (anchoredMatch isLowerAlnumChar isLabelMidLower) then none
  else some "subdomain must match DNS subdomain format (lowercase alphanumeric, `-`, `.`, max 253 characters, must start and end with alphanumeric)"

/-- new-subdomain-name.go `ValidateLabelOrAnnotationNamePart`: length check,
then the regex `^([A-Za-z0-9][-A-Za-z0-9_.]*)?[A-Za-z0-9]$`. -/
def ValidateLabelOrAnnotationNamePart (name : String) : Option String :=
  if 63 < goLen name then
    some "name part exceeds maximum length of 63 characters"
  else if anchoredMatch isAlnumChar isNamePartMid name.data then none
  else some "name part must consist of alphanumeric characters, '-', '_', or '.', and must start and end with an alphanumeric character"

/-- new-subdomain-name.go `ValidateLabelOrAnnotationKey`: split on the first
slash; with a prefix present, the prefix must be a DNS subdomain and the
remainder a name part; without one, the whole key is a name part. The Go
source's final else branch (an empty split) is unreachable: SplitN with
n = 2 always returns one or two parts. -/
def ValidateLabelOrAnnotationKey (key : String) : Option String :=
  match splitN2 '/' key with
  | (pfx, some name) =>
    match ValidateDNSSubdomain pfx with
    | some e => some ("invalid prefix: " ++ e)
    | none =>
      match ValidateLabelOrAnnotationNamePart name with
      | some e => some ("invalid name part: " ++ e)
      | none => none
  | (whole, none) =>
    match ValidateLabelOrAnnotationNamePart whole with
    | some e => some ("invalid name part: " ++ e)
    | none => none

end NewSubdomain

namespace Part000

/-- unnamed/part_000 `ValidateDNSLabel`: 63-byte length check, then the
mixed-case regex `^[a-zA-Z0-9]([-a-zA-Z0-9]*[a-zA-Z0-9])?$`. -/
def ValidateDNSLabel (label : String) : Option String :=
  if 63 < goLen label then some "label exceeds maximum length of 63 characters"
  else if anchoredMatch isAlnumChar isLabelMidMixed label.data then none
  else some "label must match DNS label format (alphanumeric, hyphens, max 63 characters, must start and end with alphanumeric)"

/-- unnamed/part_000 `ValidateDNSSubdomain`: 253-byte length check, then the
regex `^[a-z0-9]([-a-z0-9]*[a-z0-9])?$` — again dotless although the
comment and message speak of dots. -/
def ValidateDNSSubdomain (subdomain : String) : Option String :=
  if 253 < goLen subdomain then
    some "subdomain exceeds maximum length of 253 characters"
  else if anchoredMatch isLowerAlnumChar isLabelMidLower subdomain.data then none
  else some "subdomain must match DNS subdomain format (lowercase alphanumeric, `-`, `.`, max 253 characters, must start and end with alphanumeric)"

/-- unnamed/part_000 `ValidateLabelKey`: split on the first slash, validate
the prefix (when present) as a DNS subdomain and the name as a DNS label.
The final else branch of the Go source is unreachable (SplitN with n = 2
always yields one or two parts). -/
def ValidateLabelKey (key : String) : Option String :=
  match splitN2 '/' key with
  | (pfx, some name) =>
    match ValidateDNSSubdomain pfx with
    | some e => some ("invalid prefix: " ++ e)
    | none =>
      match ValidateDNSLabel name with
      | some e => some ("invalid name: " ++ e)
      | none => none
  | (whole, none) =>
    match ValidateDNSLabel whole with
    | some e => some ("invalid name: " ++ e)
    | none => none

/-- unnamed/part_000 `ValidateLabelValue`: the empty value is allowed,
otherwise the value must be a DNS label. -/
def ValidateLabelValue (value : String) : Option String :=
  if value = "" then none
  else
    match ValidateDNSLabel value with
    | some e => some ("invalid value: " ++ e)
    | none => none

/-- unnamed/part_000 `JoinErrors`. -/
def JoinErrors (errs : List String) : String :=
  goJoin "; " errs

/-- The two errors one labels-map entry contributes in unnamed/part_000
`ValidateMetadataLabels`'s loop body: the wrapped key error (when the key is
invalid) then the wrapped value error (when the value is invalid). -/
def labelEntryErrs (kv : String × String) : List String :=
  optList ((ValidateLabelKey kv.1).map
    (fun e => "invalid label key '" ++ kv.1 ++ "': " ++ e)) ++
  optList ((ValidateLabelValue kv.2).map
    (fun e => "invalid label value for key '" ++ kv.1 ++ "': " ++ e))

/-- All errors unnamed/part_000 `ValidateMetadataLabels` collects over the
map, in iteration order (the association list's order). -/
def labelErrs (labels : List (String × String)) : List String :=
  labels.flatMap labelEntryErrs

/-- unnamed/part_000 `ValidateMetadataLabels`: collect every entry's key and
value errors without stopping, then join them when any exist. -/
def ValidateMetadataLabels (labels : List (String × String)) : Option String :=
  if 0 < (labelErrs labels).length then some (JoinErrors (labelErrs labels))
  else none

end Part000

namespace Annotations

/-- metadata-annotations.go `ValidateDNSLabel` (identical to the part_000
copy). -/
def ValidateDNSLabel (label : String) : Option String :=
  if 63 < goLen label then some "label exceeds maximum length of 63 characters"
  else if anchoredMatch isAlnumChar isLabelMidMixed label.data then none
  else some "label must match DNS label format (alphanumeric, hyphens, max 63 characters, must start and end with alphanumeric)"

/-- metadata-annotations.go `ValidateDNSSubdomain` (identical to the
part_000 copy: dotless regex under a 253-byte length check). -/
def ValidateDNSSubdomain (subdomain : String) : Option String :=
  if 253 < goLen subdomain then
    some "subdomain exceeds maximum length of 253 characters"
  else if anchoredMatch isLowerAlnumChar isLabelMidLower subdomain.data then none
  else some "subdomain must match DNS subdomain format (lowercase alphanumeric, `-`, `.`, max 253 characters, must start and end with alphanumeric)"

/-- metadata-annotations.go `ValidateLabelKey` (identical to the part_000
copy). -/
def ValidateLabelKey (key : String) : Option String :=
  match splitN2 '/' key with
  | (pfx, some name) =>
    match ValidateDNSSubdomain pfx with
    | some e => some ("invalid prefix: " ++ e)
    | none =>
      match ValidateDNSLabel name with
      | some e => some ("invalid name: " ++ e)
      | none => none
  | (whole, none) =>
    match ValidateDNSLabel whole with
    | some e => some ("invalid name: " ++ e)
    | none => none

/-- metadata-annotations.go `ValidateAnnotationValue`: the value (a byte
string in Go) must be valid UTF-8. -/
def ValidateAnnotationValue (value : List Nat) : Option String :=
  if validUtf8 value then none
  else some "annotation value must be a valid UTF-8 string"

/-- metadata-annotations.go `JoinErrors`. -/
def JoinErrors (errs : List String) : String :=
  goJoin "; " errs

/-- The two errors one annotations-map entry contributes in
metadata-annotations.go `ValidateMetadataAnnotations`'s loop body. -/
def annotationEntryErrs (kv : String × List Nat) : List String :=
  optList ((ValidateLabelKey kv.1).map
    (fun e => "invalid annotation key '" ++ kv.1 ++ "': " ++ e)) ++
  optList ((ValidateAnnotationValue kv.2).map
    (fun e => "invalid annotation value for key '" ++ kv.1 ++ "': " ++ e))

/-- All errors `ValidateMetadataAnnotations` collects over the map, in
iteration order. -/
def annotationErrs (annotations : List (String × List Nat)) : List String :=
  annotations.flatMap annotationEntryErrs

/-- metadata-annotations.go `ValidateMetadataAnnotations`: collect every
entry's key and value errors without stopping, then join them. -/
def ValidateMetadataAnnotations (annotations : List (String × List Nat)) : Option String :=
  if 0 < (annotationErrs annotations).length then
    some (JoinErrors (annotationErrs annotations))
  else none

end Annotations

namespace Kind

/-- kind.go `ValidateLength`: this file's variant has no emptiness check. -/
def ValidateLength (input : String) (maxLength : Nat) : Option String :=
  if maxLength < goLen input then
    some ("input exceeds maximum length of " ++ toString maxLength ++ " characters")
  else none

/-- kind.go `ValidateAlphanumeric`: the regex `^[a-zA-Z0-9]+$` (nonempty,
alphanumerics only). -/
def ValidateAlphanumeric (input : String) : Option String :=
  if !input.data.isEmpty && input.data.all isAlnumChar then none
  else some "input contains invalid characters; only alphanumeric characters are allowed"

/-- kind.go `ValidateStartsWithUppercase`: empty fails with its own message;
otherwise the Go condition `!HasPrefix(input, ToUpper(string(input[0]))) ||
!regexp(a leading A-Z).MatchString(input)` errs exactly when the first
character is not an uppercase ASCII letter (when it is, the string does
start with its own uppercased first character and the regex matches; when
it is not, the regex conjunct already fails). -/
def ValidateStartsWithUppercase (input : String) : Option String :=
  if input.data.isEmpty then some "input cannot be empty"
  else if headUpper input.data then none
  else some "input must start with an uppercase letter"

/-- kind.go `JoinErrors`. -/
def JoinErrors (errs : List String) : String :=
  goJoin "; " errs

/-- The error list kind.go `ValidateKind` accumulates: the emptiness,
length, alphanumeric and uppercase-start checks in order, all run. -/
def kindErrs (kind : String) : List String :=
  (if kind = "" then ["kind cannot be empty"] else []) ++
  optList (ValidateLength kind 63) ++
  optList (ValidateAlphanumeric kind) ++
  optList (ValidateStartsWithUppercase kind)

/-- kind.go `ValidateKind`: every check runs, errors joined. -/
def ValidateKind (kind : String) : Option String :=
  if 0 < (kindErrs kind).length then some (JoinErrors (kindErrs kind)) else none

end Kind

namespace ApiVersion

/-- apiVersion.go `ValidateLength` (no emptiness check). -/
def ValidateLength (input : String) (maxLength : Nat) : Option String :=
  if maxLength < goLen input then
    some ("input exceeds maximum length of " ++ toString maxLength ++ " characters")
  else none

/-- apiVersion.go `ValidateApiVersionAllowedCharacters`: the character-class
regex over alphanumerics, hyphen and slash (nonempty), then at most one
slash. -/
def ValidateApiVersionAllowedCharacters (input : String) : Option String :=
  if !(!input.data.isEmpty && input.data.all isApiVersionChar) then
    some "input contains invalid characters; only alphanumeric, hyphen (-), and slash (/) are allowed"
  else if 1 < input.data.count '/' then
    some "input contains more than one slash (/); only one slash is allowed"
  else none

/-- apiVersion.go `isValidVersion`: the regex `v`, one or more digits, then
optionally `alpha` or `beta` followed by one or more digits. The
digits-then-optional-suffix split is unique because the suffix starts with
a letter, so the take/drop on digits decides the regex. -/
def isValidVersion (cs : List Char) : Bool :=
  match cs with
  | c :: rest =>
    c = 'v' &&
      !(rest.takeWhile isDigitChar).isEmpty &&
      versionSuffixOk (rest.dropWhile isDigitChar)
  | [] => false
where
  /-- The optional `(alpha|beta)\d+` tail: empty, or one of the two words
  followed by one or more digits. -/
  versionSuffixOk (cs : List Char) : Bool :=
    cs.isEmpty ||
    (['a', 'l', 'p', 'h', 'a'].isPrefixOf cs &&
      !(cs.drop 5).isEmpty && (cs.drop 5).all isDigitChar) ||
    (['b', 'e', 't', 'a'].isPrefixOf cs &&
      !(cs.drop 4).isEmpty && (cs.drop 4).all isDigitChar)

/-- apiVersion.go `ValidateDNSLabel`: 63-byte length check, then the
mixed-case label regex. -/
def ValidateDNSLabel (label : String) : Option String :=
  if 63 < goLen label then some "label exceeds maximum length of 63 characters"
  else if anchoredMatch isAlnumChar isLabelMidMixed label.data then none
  else some "label must match DNS label format (alphanumeric, hyphens, periods, max 63 characters)"

/-- apiVersion.go `ValidateGroupVersionFormat`: split on every slash; one
part is a core version, two parts are group/version, more are rejected. -/
def ValidateGroupVersionFormat (apiVersion : String) : Option String :=
  match splitAll '/' apiVersion.data with
  | [p] =>
    if isValidVersion p then none
    else some "core API version is invalid; must match pattern `v\\d+` or `v\\d+(alpha|beta)\\d+`"
  | [g, v] =>
    match ValidateDNSLabel (String.mk g) with
    | some e => some ("API group is invalid: " ++ e)
    | none =>
      if isValidVersion v then none
      else some "API version is invalid; must match pattern `v\\d+` or `v\\d+(alpha|beta)\\d+`"
  | _ => some "apiVersion has an invalid format; expected `group/version` or `version`"

/-- apiVersion.go `JoinErrors`. -/
def JoinErrors (errs : List String) : String :=
  goJoin "; " errs

/-- The error list apiVersion.go `ValidateApiVersion` accumulates: the
emptiness, length, allowed-characters and group/version checks in order,
all run. -/
def apiVersionErrs (apiVersion : String) : List String :=
  (if apiVersion = "" then ["apiVersion cannot be empty"] else []) ++
  optList (ValidateLength apiVersion 63) ++
  optList (ValidateApiVersionAllowedCharacters apiVersion) ++
  optList (ValidateGroupVersionFormat apiVersion)

/-- apiVersion.go `ValidateApiVersion`: every check runs, errors joined. -/
def ValidateApiVersion (apiVersion : String) : Option String :=
  if 0 < (apiVersionErrs apiVersion).length then
    some (JoinErrors (apiVersionErrs apiVersion))
  else none

end ApiVersion

theorem string_eq_empty_iff (s : String) : s = "" ↔ s.data = [] := by
  constructor
  · intro h; subst h; rfl
  · intro h
    cases s with
    | mk l =>
      simp only at h
      subst h; rfl

theorem tailAnchored_mem (isA isM : Char → Bool) :
    ∀ cs : List Char, tailAnchored isA isM cs = true →
      ∀ c ∈ cs, isA c = true ∨ isM c = true := by
  intro cs
  induction cs with
  | nil => intro _ c hc; cases hc
  | cons c rest ih =>
    intro h x hx
    unfold tailAnchored at h
    by_cases hr : rest.isEmpty
    · rw [if_pos hr] at h
      rw [List.isEmpty_iff] at hr
      subst hr
      rcases List.mem_cons.mp hx with rfl | hx
      · exact Or.inl h
      · cases hx
    · rw [if_neg hr] at h
      rw [Bool.and_eq_true] at h
      obtain ⟨hm, ht⟩ := h
      rcases List.mem_cons.mp hx with rfl | hx
      · exact Or.inr hm
      · exact ih ht x hx

theorem anchoredMatch_mem (isA isM : Char → Bool) (cs : List Char)
    (h : anchoredMatch isA isM cs = true) :
    ∀ c ∈ cs, isA c = true ∨ isM c = true := by
  cases cs with
  | nil => intro c hc; cases hc
  | cons c rest =>
    unfold anchoredMatch at h
    rw [Bool.and_eq_true] at h
    obtain ⟨ha, ht⟩ := h
    intro x hx
    rcases List.mem_cons.mp hx with rfl | hx
    · exact Or.inl ha
    · exact tailAnchored_mem isA isM rest ht x hx

theorem splitFirst_count_none (sep : Char) :
    ∀ cs : List Char, (splitFirst sep cs).2 = none → cs.count sep = 0 := by
  intro cs
  induction cs with
  | nil => intro _; rfl
  | cons c cs ih =>
    intro h
    unfold splitFirst at h
    by_cases hc : c = sep
    · rw [if_pos hc] at h
      cases h
    · rw [if_neg hc] at h
      simp only at h
      rw [List.count_cons, ih h]
      simp [hc]

theorem splitFirst_count_some (sep : Char) :
    ∀ cs b : List Char, (splitFirst sep cs).2 = some b →
      cs.count sep = b.count sep + 1 := by
  intro cs
  induction cs with
  | nil => intro b h; cases h
  | cons c cs ih =>
    intro b h
    unfold splitFirst at h
    by_cases hc : c = sep
    · rw [if_pos hc] at h
      simp only at h
      cases h
      rw [List.count_cons]
      simp [hc]
    · rw [if_neg hc] at h
      simp only at h
      rw [List.count_cons, ih b h]
      simp [hc]

theorem splitN2_two_slashes (key : String) (h : 2 ≤ key.data.count '/') :
    ∃ a b : List Char,
      splitN2 '/' key = (String.mk a, some (String.mk b)) ∧ '/' ∈ b := by
  rcases hsp : splitFirst '/' key.data with ⟨a, r⟩
  cases r with
  | none =>
    have h0 : (splitFirst '/' key.data).2 = none := by rw [hsp]
    have := splitFirst_count_none '/' key.data h0
    omega
  | some b =>
    have hs : (splitFirst '/' key.data).2 = some b := by rw [hsp]
    have hc := splitFirst_count_some '/' key.data b hs
    refine ⟨a, b, ?_, ?_⟩
    · unfold splitN2
      rw [hsp]
    · rw [← List.count_pos_iff]
      omega

theorem part000_dnsLabel_slash (s : String) (h : '/' ∈ s.data) :
    (Part000.ValidateDNSLabel s).isSome = true := by
  unfold Part000.ValidateDNSLabel
  split
  · rfl
  · split
    · rename_i hm
      rcases anchoredMatch_mem _ _ _ hm '/' h with h1 | h1
      · exact absurd h1 (by decide)
      · exact absurd h1 (by decide)
    · rfl

theorem newSubdomain_namePart_slash (s : String) (h : '/' ∈ s.data) :
    (NewSubdomain.ValidateLabelOrAnnotationNamePart s).isSome = true := by
  unfold NewSubdomain.ValidateLabelOrAnnotationNamePart
  split
  · rfl
  · split
    · rename_i hm
      rcases anchoredMatch_mem _ _ _ hm '/' h with h1 | h1
      · exact absurd h1 (by decide)
      · exact absurd h1 (by decide)
    · rfl

theorem part000_key_two_slashes (key : String) (h : 2 ≤ key.data.count '/') :
    (Part000.ValidateLabelKey key).isSome = true := by
  obtain ⟨a, b, hsp, hb⟩ := splitN2_two_slashes key h
  unfold Part000.ValidateLabelKey
  rw [hsp]
  cases hp : Part000.ValidateDNSSubdomain (String.mk a) with
  | some e => simp [hp]
  | none =>
    obtain ⟨e, he⟩ := Option.isSome_iff_exists.mp (part000_dnsLabel_slash (String.mk b) hb)
    simp [hp, he]

theorem newSubdomain_key_two_slashes (key : String) (h : 2 ≤ key.data.count '/') :
    (NewSubdomain.ValidateLabelOrAnnotationKey key).isSome = true := by
  obtain ⟨a, b, hsp, hb⟩ := splitN2_two_slashes key h
  unfold NewSubdomain.ValidateLabelOrAnnotationKey
  rw [hsp]
  cases hp : NewSubdomain.ValidateDNSSubdomain (String.mk a) with
  | some e => simp [hp]
  | none =>
    obtain ⟨e, he⟩ := Option.isSome_iff_exists.mp (newSubdomain_namePart_slash (String.mk b) hb)
    simp [hp, he]

theorem splitAll_ne_nil (sep : Char) (cs : List Char) : splitAll sep cs ≠ [] := by
  induction cs with
  | nil => simp [splitAll]
  | cons c cs ih =>
    unfold splitAll
    split
    · simp
    · rcases hs : splitAll sep cs with _ | ⟨p, ps⟩ <;> simp

theorem splitAll_length (sep : Char) (cs : List Char) :
    (splitAll sep cs).length = cs.count sep + 1 := by
  induction cs with
  | nil => rfl
  | cons c cs ih =>
    unfold splitAll
    rw [List.count_cons]
    split
    · rename_i hc
      simp [ih, hc]
    · rename_i hc
      rcases hs : splitAll sep cs with _ | ⟨p, ps⟩
      · exact absurd hs (splitAll_ne_nil sep cs)
      · rw [hs] at ih
        simp at ih
        simp [hc, ih]

theorem apiVersion_two_slashes_isSome (s : String) (h : 2 ≤ s.data.count '/') :
    (ApiVersion.ValidateApiVersion s).isSome = true := by
  have hgvf : ∃ e, ApiVersion.ValidateGroupVersionFormat s = some e := by
    unfold ApiVersion.ValidateGroupVersionFormat
    have hlen := splitAll_length '/' s.data
    rcases hsp : splitAll '/' s.data with _ | ⟨p1, _ | ⟨p2, _ | ⟨p3, rest⟩⟩⟩
    · exact absurd hsp (splitAll_ne_nil '/' s.data)
    · rw [hsp] at hlen
      simp at hlen
      omega
    · rw [hsp] at hlen
      simp at hlen
      omega
    · exact ⟨_, rfl⟩
  obtain ⟨e, he⟩ := hgvf
  have hpos : 0 < (ApiVersion.apiVersionErrs s).length := by
    unfold ApiVersion.apiVersionErrs
    rw [he]
    simp [optList]
  unfold ApiVersion.ValidateApiVersion
  rw [if_pos hpos]
  rfl

theorem labelErrs_length (l : List (String × String)) :
    (Part000.labelErrs l).length
      = l.countP (fun kv => (Part000.ValidateLabelKey kv.1).isSome)
        + l.countP (fun kv => (Part000.ValidateLabelValue kv.2).isSome) := by
  induction l with
  | nil => rfl
  | cons kv t ih =>
    rw [show Part000.labelErrs (kv :: t)
          = Part000.labelEntryErrs kv ++ Part000.labelErrs t from rfl]
    rw [List.length_append, ih, List.countP_cons, List.countP_cons]
    rcases hk : Part000.ValidateLabelKey kv.1 with _ | e <;>
      rcases hv : Part000.ValidateLabelValue kv.2 with _ | e2 <;>
      simp [Part000.labelEntryErrs, optList, hk, hv] <;> omega

theorem annotationErrs_length (l : List (String × List Nat)) :
    (Annotations.annotationErrs l).length
      = l.countP (fun kv => (Annotations.ValidateLabelKey kv.1).isSome)
        + l.countP (fun kv => (Annotations.ValidateAnnotationValue kv.2).isSome) := by
  induction l with
  | nil => rfl
  | cons kv t ih =>
    rw [show Annotations.annotationErrs (kv :: t)
          = Annotations.annotationEntryErrs kv ++ Annotations.annotationErrs t from rfl]
    rw [List.length_append, ih, List.countP_cons, List.countP_cons]
    rcases hk : Annotations.ValidateLabelKey kv.1 with _ | e <;>
      rcases hv : Annotations.ValidateAnnotationValue kv.2 with _ | e2 <;>
      simp [Annotations.annotationEntryErrs, optList, hk, hv] <;> omega

theorem labelErrs_perm (m m' : List (String × String)) (h : m.Perm m') :
    (Part000.labelErrs m).Perm (Part000.labelErrs m') :=
  h.flatMap_right Part000.labelEntryErrs

theorem annotationErrs_perm (a a' : List (String × List Nat)) (h : a.Perm a') :
    (Annotations.annotationErrs a).Perm (Annotations.annotationErrs a') :=
  h.flatMap_right Annotations.annotationEntryErrs

theorem charUtf8Len_of_alnum (c : Char) (h : isAlnumChar c = true) :
    charUtf8Len c = 1 := by
  unfold isAlnumChar isUpperAlphaChar isDigitChar at h
  simp only [Bool.or_eq_true, Bool.and_eq_true, decide_eq_true_eq] at h
  unfold charUtf8Len
  rw [if_pos]
  omega

theorem sum_charUtf8Len_of_alnum :
    ∀ cs : List Char, cs.all isAlnumChar = true →
      (cs.map charUtf8Len).sum = cs.length := by
  intro cs
  induction cs with
  | nil => intro _; rfl
  | cons c cs ih =>
    intro h
    rw [List.all_cons, Bool.and_eq_true] at h
    rw [List.map_cons, List.sum_cons, List.length_cons,
      charUtf8Len_of_alnum c h.1, ih h.2]
    omega

theorem goLen_eq_length_of_alnum (s : String) (h : s.data.all isAlnumChar = true) :
    goLen s = s.data.length :=
  sum_charUtf8Len_of_alnum s.data h

theorem validateKind_none_iff (s : String) :
    Kind.ValidateKind s = none ↔
      (s.data ≠ [] ∧ goLen s ≤ 63 ∧ s.data.all isAlnumChar = true ∧
        headUpper s.data = true) := by
  have hemp := string_eq_empty_iff s
  unfold Kind.ValidateKind Kind.kindErrs Kind.ValidateLength Kind.ValidateAlphanumeric
    Kind.ValidateStartsWithUppercase
  by_cases h1 : s = "" <;>
  by_cases h2 : 63 < goLen s <;>
  by_cases h3 : s.data.all isAlnumChar = true <;>
  by_cases h4 : s.data.isEmpty <;>
  by_cases h5 : headUpper s.data = true <;>
  simp [h1, h2, h3, h4, h5, optList, List.isEmpty_iff] at hemp ⊢ <;>
  simp [hemp] at h4 ⊢ <;>
  omega

theorem semicolonJoined_cons₂ (x y : String) (ys : List String) :
    semicolonJoined (x :: y :: ys) = (x ++ "; ") ++ semicolonJoined (y :: ys) := by
  rw [semicolonJoined]
  simp

theorem semicolonJoined_append_head (x r : String) (rs : List String) :
    semicolonJoined ((x ++ ("; " ++ r)) :: rs)
      = x ++ ("; " ++ semicolonJoined (r :: rs)) := by
  cases rs with
  | nil => simp [semicolonJoined, String.append_assoc]
  | cons y ys => simp [semicolonJoined, String.append_assoc]

theorem goJoin_cons_eq :
    ∀ (rest : List String) (e : String),
      goJoin "; " (e :: rest) = semicolonJoined (e :: rest) := by
  intro rest
  induction rest with
  | nil => intro e; rfl
  | cons r rs ih =>
    intro e
    show (r :: rs).foldl (fun acc s => acc ++ ("; " ++ s)) e = _
    rw [List.foldl_cons]
    have hstep := ih (e ++ ("; " ++ r))
    rw [show goJoin "; " ((e ++ ("; " ++ r)) :: rs)
          = rs.foldl (fun acc s => acc ++ ("; " ++ s)) (e ++ ("; " ++ r)) from rfl] at hstep
    rw [hstep, semicolonJoined_append_head]
    simp [semicolonJoined, String.append_assoc]

theorem mem_infix_semicolonJoined :
    ∀ (errs : List String) (e : String), e ∈ errs →
      e.data <:+: (semicolonJoined errs).data := by
  intro errs
  induction errs with
  | nil => intro e he; cases he
  | cons x rest ih =>
    intro e he
    cases rest with
    | nil =>
      rcases List.mem_cons.mp he with rfl | h0
      · exact List.infix_refl _
      · cases h0
    | cons y ys =>
      rw [semicolonJoined_cons₂, String.data_append, String.data_append]
      rcases List.mem_cons.mp he with rfl | h0
      · exact ((List.prefix_append _ _).trans (List.prefix_append _ _)).isInfix
      · exact (ih e h0).trans (List.suffix_append _ _).isInfix

/-- C1: the claim says every valid DNS Subdomain (dot-separated lowercase
RFC 1123 labels, total length at most 253) passes ValidateMetadataName.
The code contradicts it: "example.com" is such a subdomain (first
conjunct), yet metdata-name.go's own ValidateDNSSubdomain — whose regex
omits the dot its comment and message promise — makes ValidateMetadataName
reject it (second conjunct). The updated validator in new-subdomain-name.go
accepts it (third conjunct), showing the dotless regex is the slip. The
claim's uppercase half does hold; the fourth conjunct evaluates it at
"EXAMPLE". -/
theorem claim1_metadata_name_dotted_subdomain :
    specDNSSubdomain "example.com" = true ∧
    (MetdataName.ValidateMetadataName "example.com").isSome = true ∧
    NewSubdomain.ValidateDNSSubdomain "example.com" = none ∧
    (MetdataName.ValidateMetadataName "EXAMPLE").isSome = true :=
  ⟨by decide, by decide, by decide, by decide⟩

/-- C2: the label/annotation key validators split on the first slash only
("a/b/c" gives prefix "a" and name part "b/c"), and every key with two or
more slashes is rejected by both ValidateLabelKey (unnamed/part_000 and
metadata-annotations.go) and ValidateLabelOrAnnotationKey
(new-subdomain-name.go), since the retained slash violates the name-part
grammar. -/
theorem claim2_key_first_slash_split (key : String)
    (h : 2 ≤ key.data.count '/') :
    splitN2 '/' "a/b/c" = ("a", some "b/c") ∧
    (Part000.ValidateLabelKey key).isSome = true ∧
    (NewSubdomain.ValidateLabelOrAnnotationKey key).isSome = true :=
  ⟨by decide, part000_key_two_slashes key h, newSubdomain_key_two_slashes key h⟩

/-- Witness for C2 at the concrete key "a/b/c". -/
theorem claim2_key_first_slash_split_witness :
    splitN2 '/' "a/b/c" = ("a", some "b/c") ∧
    (Part000.ValidateLabelKey "a/b/c").isSome = true ∧
    (NewSubdomain.ValidateLabelOrAnnotationKey "a/b/c").isSome = true :=
  claim2_key_first_slash_split "a/b/c" (by decide)

/-- C3: the claim says ValidateLabelKey "app.kubernetes.io/name" succeeds.
The cited code rejects it (first conjunct): its in-file ValidateDNSSubdomain
regex has no dot, so the prefix "app.kubernetes.io" fails, although the
file's own test table marks this key Valid. The updated key validator of
new-subdomain-name.go accepts it (third conjunct). The claim's failure half
holds everywhere: "app.kubernetes.io/role/extra" is rejected by both
(second and fourth conjuncts). -/
theorem claim3_label_key_scenarios :
    (Part000.ValidateLabelKey "app.kubernetes.io/name").isSome = true ∧
    (Part000.ValidateLabelKey "app.kubernetes.io/role/extra").isSome = true ∧
    NewSubdomain.ValidateLabelOrAnnotationKey "app.kubernetes.io/name" = none ∧
    (NewSubdomain.ValidateLabelOrAnnotationKey "app.kubernetes.io/role/extra").isSome
      = true :=
  ⟨by decide, by decide, by decide, by decide⟩

/-- C4: on the empty string the metadata.name, kind and apiVersion
validators each fail and their message carries the empty-input reason
("cannot be empty"), while the label-value and annotation-value validators
succeed. -/
theorem claim4_empty_input_outcomes :
    (MetdataName.ValidateMetadataName "").isSome = true ∧
    strContainsSub "cannot be empty" ((MetdataName.ValidateMetadataName "").getD "")
      = true ∧
    (Kind.ValidateKind "").isSome = true ∧
    strContainsSub "cannot be empty" ((Kind.ValidateKind "").getD "") = true ∧
    (ApiVersion.ValidateApiVersion "").isSome = true ∧
    strContainsSub "cannot be empty" ((ApiVersion.ValidateApiVersion "").getD "")
      = true ∧
    Part000.ValidateLabelValue "" = none ∧
    Annotations.ValidateAnnotationValue [] = none :=
  ⟨by decide, by decide, by decide, by decide, by decide, by decide, by decide,
    by decide⟩

/-- C5: the labels and annotations map validators do not short-circuit: the
error list they join has exactly one entry per invalid key plus one per
invalid value (N+M), and a permutation of the map (any other iteration
order) yields a permutation of the same error multiset. -/
theorem claim5_aggregation_counts_and_order
    (m m' : List (String × String)) (a a' : List (String × List Nat))
    (hm : m.Perm m') (ha : a.Perm a') :
    (Part000.labelErrs m).length
        = m.countP (fun kv => (Part000.ValidateLabelKey kv.1).isSome)
          + m.countP (fun kv => (Part000.ValidateLabelValue kv.2).isSome) ∧
    (Part000.labelErrs m).Perm (Part000.labelErrs m') ∧
    (Annotations.annotationErrs a).length
        = a.countP (fun kv => (Annotations.ValidateLabelKey kv.1).isSome)
          + a.countP (fun kv => (Annotations.ValidateAnnotationValue kv.2).isSome) ∧
    (Annotations.annotationErrs a).Perm (Annotations.annotationErrs a') :=
  ⟨labelErrs_length m, labelErrs_perm m m' hm, annotationErrs_length a,
    annotationErrs_perm a a' ha⟩

/-- Witness for C5: a two-entry labels map (one bad key, one bad value) in
both iteration orders, and a two-entry annotations map (one bad value) in
both orders. -/
theorem claim5_aggregation_witness :
    (Part000.labelErrs [("_bad", "ok"), ("good", "-")]).length
        = ([("_bad", "ok"), ("good", "-")] : List (String × String)).countP
            (fun kv => (Part000.ValidateLabelKey kv.1).isSome)
          + ([("_bad", "ok"), ("good", "-")] : List (String × String)).countP
            (fun kv => (Part000.ValidateLabelValue kv.2).isSome) ∧
    (Part000.labelErrs [("_bad", "ok"), ("good", "-")]).Perm
      (Part000.labelErrs [("good", "-"), ("_bad", "ok")]) ∧
    (Annotations.annotationErrs [("u", [255]), ("w", [104])]).length
        = ([("u", [255]), ("w", [104])] : List (String × List Nat)).countP
            (fun kv => (Annotations.ValidateLabelKey kv.1).isSome)
          + ([("u", [255]), ("w", [104])] : List (String × List Nat)).countP
            (fun kv => (Annotations.ValidateAnnotationValue kv.2).isSome) ∧
    (Annotations.annotationErrs [("u", [255]), ("w", [104])]).Perm
      (Annotations.annotationErrs [("w", [104]), ("u", [255])]) :=
  claim5_aggregation_counts_and_order
    [("_bad", "ok"), ("good", "-")] [("good", "-"), ("_bad", "ok")]
    [("u", [255]), ("w", [104])] [("w", [104]), ("u", [255])]
    (by decide) (by decide)

/-- C6: ValidateApiVersion accepts "apps/v1beta1"; it rejects "apps//v1"
and its message names the more-than-one-slash rule; in general any
apiVersion with two or more slashes is rejected. -/
theorem claim6_apiVersion_slashes (s : String) (h : 2 ≤ s.data.count '/') :
    ApiVersion.ValidateApiVersion "apps/v1beta1" = none ∧
    (ApiVersion.ValidateApiVersion "apps//v1").isSome = true ∧
    strContainsSub "more than one slash"
      ((ApiVersion.ValidateApiVersion "apps//v1").getD "") = true ∧
    (ApiVersion.ValidateApiVersion s).isSome = true :=
  ⟨by decide, by decide, by decide, apiVersion_two_slashes_isSome s h⟩

/-- Witness for C6 at the concrete apiVersion "apps//v1". -/
theorem claim6_apiVersion_slashes_witness :
    ApiVersion.ValidateApiVersion "apps/v1beta1" = none ∧
    (ApiVersion.ValidateApiVersion "apps//v1").isSome = true ∧
    strContainsSub "more than one slash"
      ((ApiVersion.ValidateApiVersion "apps//v1").getD "") = true ∧
    (ApiVersion.ValidateApiVersion "apps//v1").isSome = true :=
  claim6_apiVersion_slashes "apps//v1" (by decide)

/-- C7: ValidateKind rejects "deployment" (naming the uppercase rule) and
accepts "Pod"; in general a kind is accepted exactly when it is nonempty,
at most 63 characters, alphanumeric only, and starts with an uppercase
letter. -/
theorem claim7_kind_grammar (s : String) :
    (Kind.ValidateKind "deployment").isSome = true ∧
    strContainsSub "uppercase" ((Kind.ValidateKind "deployment").getD "") = true ∧
    Kind.ValidateKind "Pod" = none ∧
    (Kind.ValidateKind s = none ↔
      (s.data ≠ [] ∧ s.data.length ≤ 63 ∧ s.data.all isAlnumChar = true ∧
        headUpper s.data = true)) := by
  refine ⟨by decide, by decide, by decide, ?_⟩
  rw [validateKind_none_iff]
  constructor
  · rintro ⟨h1, h2, h3, h4⟩
    exact ⟨h1, by rw [← goLen_eq_length_of_alnum s h3]; exact h2, h3, h4⟩
  · rintro ⟨h1, h2, h3, h4⟩
    exact ⟨h1, by rw [goLen_eq_length_of_alnum s h3]; exact h2, h3, h4⟩

/-- C8: every duplicated JoinErrors renders a non-empty error list as the
semicolon-joined concatenation of the messages in input order, and each
original message appears verbatim (as a contiguous substring) in the joined
description. -/
theorem claim8_joinErrors_semicolon (errs : List String) (h : errs ≠ []) :
    Annotations.JoinErrors errs = semicolonJoined errs ∧
    Kind.JoinErrors errs = semicolonJoined errs ∧
    ApiVersion.JoinErrors errs = semicolonJoined errs ∧
    ∀ e ∈ errs, e.data <:+: (Annotations.JoinErrors errs).data := by
  obtain ⟨x, rest, rfl⟩ := List.exists_cons_of_ne_nil h
  have hj := goJoin_cons_eq rest x
  refine ⟨hj, hj, hj, ?_⟩
  intro e he
  rw [show Annotations.JoinErrors (x :: rest) = goJoin "; " (x :: rest) from rfl, hj]
  exact mem_infix_semicolonJoined (x :: rest) e he

/-- Witness for C8 at the concrete list of messages. -/
theorem claim8_joinErrors_semicolon_witness :
    Annotations.JoinErrors ["first error", "second error"]
      = semicolonJoined ["first error", "second error"] ∧
    Kind.JoinErrors ["first error", "second error"]
      = semicolonJoined ["first error", "second error"] ∧
    ApiVersion.JoinErrors ["first error", "second error"]
      = semicolonJoined ["first error", "second error"] ∧
    ∀ e ∈ (["first error", "second error"] : List String),
      e.data <:+: (Annotations.JoinErrors ["first error", "second error"]).data :=
  claim8_joinErrors_semicolon ["first error", "second error"] (by decide)

/-- C9 counterexample: the claim says an empty string is reported with a
distinct emptiness failure, never merely a class-match failure, so missing
and malformed inputs are distinguishable. But the primitive matcher
ValidateDNSLabel reports the empty string exactly as it reports the
malformed nonempty string "-": the same class-match message, which does not
mention emptiness. -/
theorem claim9_empty_not_distinct :
    Part000.ValidateDNSLabel "" = Part000.ValidateDNSLabel "-" ∧
    (Part000.ValidateDNSLabel "").isSome = true ∧
    strContainsSub "empty" ((Part000.ValidateDNSLabel "").getD "") = false :=
  ⟨by decide, by decide, by decide⟩

/-- C9 amended: on the empty string, metdata-name.go's ValidateLength fails
with its distinct empty-input reason, while the primitive character-class
matchers (ValidateDNSLabel, ValidateDNSSubdomain,
ValidateLabelOrAnnotationNamePart) perform no emptiness check: their
anchored patterns simply never match the empty string, so each reports its
generic class-match failure. -/
theorem claim9_empty_matcher_reasons :
    MetdataName.ValidateLength "" 253 = some "input cannot be empty" ∧
    Part000.ValidateDNSLabel ""
      = some "label must match DNS label format (alphanumeric, hyphens, max 63 characters, must start and end with alphanumeric)" ∧
    Part000.ValidateDNSSubdomain ""
      = some "subdomain must match DNS subdomain format (lowercase alphanumeric, `-`, `.`, max 253 characters, must start and end with alphanumeric)" ∧
    NewSubdomain.ValidateLabelOrAnnotationNamePart ""
      = some "name part must consist of alphanumeric characters, '-', '_', or '.', and must start and end with an alphanumeric character" :=
  ⟨by decide, by decide, by decide, by decide⟩

/-- C10: applied to the empty error list, every duplicated JoinErrors
definition returns (a non-nil error, by construction of errors.New, whose
message is) the empty string. -/
theorem claim10_joinErrors_empty_list :
    Part000.JoinErrors [] = "" ∧
    Annotations.JoinErrors [] = "" ∧
    Kind.JoinErrors [] = "" ∧
    ApiVersion.JoinErrors [] = "" :=
  ⟨rfl, rfl, rfl, rfl⟩
